import Mathlib

/-!
Verification of the Acey Ducey card game
(src/01_Acey_Ducey/cpp/AceyDucey.cpp, AceyDucey.hpp, main.cpp).

The game is a small state machine: a balance, a four-valued state, a fixed
13-entry rank table, and a loop that deals cards, takes bets and settles them.
We embed the game logic shallowly:

* Card draws are nondeterministic in the source (a seeded RNG); here each
  round receives the drawn ranks as explicit inputs, so properties are
  quantified over all possible draws.
* Terminal output is modelled as a list of strings, one entry per
  print/println call (stderr output from print_cards is not collected).
* The C++ int balance is modelled as an unbounded Int; no claim concerns
  overflow behaviour.
-/

namespace AceyDucey

/-- The fixed 13-entry rank table CARDS, ascending. -/
def CARDS : List String :=
  ["2", "3", "4", "5", "6", "7", "8", "9", "10", "J", "Q", "K", "A"]

/-- The index_of lambda inside is_between: std::ranges::find followed by
std::distance, which yields the position of the first match and the length
of CARDS (13) when the value is absent. List.findIdx has exactly this
behaviour. -/
def index_of (value : String) : Nat :=
  CARDS.findIdx (fun c => c == value)

/-- AceyDucey::is_between: look up the three indices, swap the bounds so the
first is the lower one, and test strict membership in the open interval. -/
def is_between (a b test : String) : Bool :=
  let idx_a := index_of a
  let idx_b := index_of b
  let idx_test := index_of test
  let bounds := if idx_a > idx_b then (idx_b, idx_a) else (idx_a, idx_b)
  decide (idx_test > bounds.1) && decide (idx_test < bounds.2)

/-- The whitespace test used by get_input_line: std::isspace in the C
locale accepts space, tab, newline, vertical tab, form feed and carriage
return. -/
def is_space_char (c : Char) : Bool :=
  c == ' ' || c == '\t' || c == '\n' || c == '\x0B' || c == '\x0C' || c == '\r'

/-- ASCII uppercase conversion, as std::toupper in the C locale: only
lowercase a..z change. -/
def to_upper_char (c : Char) : Char :=
  if 'a' ≤ c ∧ c ≤ 'z' then Char.ofNat (c.toNat - 32) else c

/-- AceyDucey::get_input_line, applied to the raw line read by getline:
erase leading and trailing whitespace, then uppercase every character. -/
def get_input_line (raw : String) : String :=
  String.mk ((((raw.data.dropWhile is_space_char).reverse.dropWhile
      is_space_char).reverse).map to_upper_char)

/-- The value std::stoi returns on a non-empty all-digit string: the usual
left-to-right decimal accumulation. -/
def stoi_digits (s : String) : Nat :=
  s.data.foldl (fun n c => n * 10 + (c.toNat - 48)) 0

/-- AceyDucey::get_positive_integer: if the string is non-empty and every
character is a decimal digit, convert with stoi; otherwise return the
sentinel -1. -/
def get_positive_integer (s : String) : Int :=
  if ¬ s.data.isEmpty ∧ s.data.all Char.isDigit then
    (stoi_digits s : Int)
  else
    -1

/-- The ordinary positional reading of a digit string, used as an
independent specification of the numeric value of an all-digit string. -/
def decimal_value : List Char → Nat
  | [] => 0
  | c :: cs => (c.toNat - 48) * 10 ^ cs.length + decimal_value cs

/-- The enum class State of AceyDucey.hpp. -/
inductive State where
  | Initialising
  | Playing
  | BetNothing
  | GameOver
deriving DecidableEq, Repr

/-- The mutable fields of the AceyDucey object that the game logic reads
and writes: the balance and the state. The deck never changes (draws are
with replacement) and the RNG is replaced by explicit draw inputs. -/
structure GameState where
  balance : Int
  state : State
deriving DecidableEq, Repr

/-- The external inputs one call to play_turn can consume: the ranks
produced by the (up to three) deal_card calls and the raw lines read by
the (up to two) get_input_line calls. -/
structure RoundInput where
  first : String
  second : String
  third : String
  betLine : String
  brokeLine : String
deriving Repr

/-- The result of one play_turn call: the updated object state, the lines
printed to stdout, and how many deal_card calls were made. -/
structure RoundResult where
  game : GameState
  output : List String
  cardsDealt : Nat
deriving Repr

/-- AceyDucey::is_game_over: the balance is zero or below. -/
def is_game_over (g : GameState) : Bool :=
  decide (g.balance ≤ 0)

/-- The index_of lambda inside print_cards, which (unlike the one in
is_between) maps an absent rank to -1. -/
def index_of_or_neg (value : String) : Int :=
  if CARDS.contains value then (index_of value : Int) else -1

/-- AceyDucey::print_cards: print the two ranks on one line, ascending by
rank; on an invalid rank an error goes to stderr and nothing reaches
stdout. -/
def print_cards (a b : String) : List String :=
  let idx_a := index_of_or_neg a
  let idx_b := index_of_or_neg b
  if idx_a = -1 ∨ idx_b = -1 then []
  else if idx_a > idx_b then [b ++ " " ++ a] else [a ++ " " ++ b]

/-- The branch of play_turn taken once bet > 0 is known (the else-if chain
after the CHICKEN early return): over-bet warning, or third-card deal and
settlement with the broke prompt on a ruinous loss. Returns the state the
round has reached just before the trailing unconditional
state = State::Playing assignment, together with the printed lines and the
number of deal_card calls made in this branch. -/
def bet_branch (g : GameState) (inp : RoundInput) (bet : Int) :
    GameState × List String × Nat :=
  if bet > g.balance then
    (g, ["SORRY, MY FRIEND, BUT YOU BET TOO MUCH.",
         "YOU HAVE ONLY " ++ toString g.balance ++ " DOLLARS TO BET."], 0)
  else
    if is_between inp.first inp.second inp.third then
      ({ g with balance := g.balance + bet }, [inp.third, "YOU WIN!!!"], 1)
    else
      let g2 : GameState := { g with balance := g.balance - bet }
      if g2.balance ≤ 0 then
        let brokeOut := [inp.third, "SORRY, YOU LOSE",
                         "SORRY, FRIEND, BUT YOU BLEW YOUR WAD.",
                         "TRY AGAIN (YES OR NO)? "]
        if get_input_line inp.brokeLine = "YES" then
          (⟨100, State.Playing⟩, brokeOut, 1)
        else
          ({ g2 with state := State.GameOver }, brokeOut, 1)
      else
        (g2, [inp.third, "SORRY, YOU LOSE"], 1)

/-- AceyDucey::play_turn. The balance header is printed only when entering
from the Playing state; a non-positive parsed bet returns early with state
BetNothing; every other path falls through to the trailing
state = State::Playing assignment, which also overwrites the GameOver set
in the broke branch. -/
def play_turn (g : GameState) (inp : RoundInput) : RoundResult :=
  let header : List String :=
    (if g.state = State.Playing then
      ["YOU NOW HAVE $" ++ toString g.balance ++ " DOLLARS"]
     else []) ++
    ["HERE ARE YOUR NEXT TWO CARDS:"] ++
    print_cards inp.first inp.second ++
    ["WHAT IS YOUR BET "]
  let bet : Int := get_positive_integer (get_input_line inp.betLine)
  if bet ≤ 0 then
    { game := { g with state := State.BetNothing },
      output := header ++ ["CHICKEN!!"],
      cardsDealt := 2 }
  else
    let r := bet_branch g inp bet
    { game := { r.1 with state := State.Playing },
      output := header ++ r.2.1,
      cardsDealt := 2 + r.2.2 }

/-- Centre a string in a field of width 66, as the {:^66} format used by
print_intro (extra space goes to the right). -/
def center66 (s : String) : String :=
  let pad := 66 - s.length
  let left := pad / 2
  String.mk (List.replicate left ' ') ++ s ++
    String.mk (List.replicate (pad - left) ' ')

/-- The lines printed by print_intro followed by print_instructions. -/
def intro_output : List String :=
  [center66 "ACEY DUCEY CARD GAME",
   center66 "CREATIVE COMPUTING  MORRISTOWN, NEW JERSEY",
   "",
   "ACEY-DUCEY IS PLAYED IN THE FOLLOWING MANNER",
   "THE DEALER (COMPUTER) DEALS TWO CARDS FACE UP",
   "YOU HAVE AN OPTION TO BET OR NOT BET DEPENDING",
   "ON WHETHER OR NOT YOU FEEL THE CARD WILL HAVE",
   "A VALUE BETWEEN THE FIRST TWO."]

/-- The farewell text of the GameOver arm of the switch in run. -/
def farewell : String := "GAME OVER. Thanks for playing!"

/-- The Playing/BetNothing arm of the switch in run: call play_turn, then
force the state to GameOver when is_game_over reports a non-positive
balance. -/
def step (g : GameState) (inp : RoundInput) : GameState × List String :=
  let r := play_turn g inp
  if is_game_over r.game then
    ({ r.game with state := State.GameOver }, r.output)
  else
    (r.game, r.output)

/-- One full iteration of the body of the while loop in run (the switch on
the current state). The GameOver arm prints the farewell; under the
while guard state != GameOver that arm is unreachable. -/
def loop_body (g : GameState) (inp : RoundInput) : GameState × List String :=
  match g.state with
  | State.Initialising => (⟨g.balance, State.Playing⟩, intro_output)
  | State.Playing => step g inp
  | State.BetNothing => step g inp
  | State.GameOver => (g, [farewell])

/-- The game states the run loop can be in at the top of its while test,
starting from the freshly constructed object (balance 100, state
Initialising) and taking loop-body steps only while the guard
state != GameOver holds, with arbitrary draws and input lines. -/
inductive Reachable : GameState → Prop
  | init : Reachable ⟨100, State.Initialising⟩
  | next (g : GameState) (inp : RoundInput) :
      Reachable g → g.state ≠ State.GameOver → Reachable (loop_body g inp).1

/-- AceyDucey::run, with explicit fuel bounding the number of loop
iterations and a list of per-round inputs. The loop exits, printing
nothing further, as soon as the while guard sees state GameOver;
otherwise it dispatches the switch. The model also stops when fuel or
round inputs run out mid-game (the source would block on stdin). -/
def run_loop : Nat → GameState → List RoundInput → GameState × List String
  | 0, g, _ => (g, [])
  | fuel + 1, g, inps =>
    if g.state = State.GameOver then (g, [])
    else
      match g.state, inps with
      | State.Initialising, _ =>
          let next := run_loop fuel ⟨g.balance, State.Playing⟩ inps
          (next.1, intro_output ++ next.2)
      | State.GameOver, _ =>
          -- dead arm: the guard above already returned
          let next := run_loop fuel g inps
          (next.1, farewell :: next.2)
      | _, [] => (g, [])
      | _, inp :: rest =>
          let r := step g inp
          let next := run_loop fuel r.1 rest
          (next.1, r.2 ++ next.2)

/-! ### Helper lemmas -/

/-- After the swap normalisation, is_between tests the open interval
between the smaller and the larger of the two bound indices. -/
theorem is_between_iff (a b t : String) :
    is_between a b t = true ↔
      min (index_of a) (index_of b) < index_of t ∧
      index_of t < max (index_of a) (index_of b) := by
  unfold is_between
  by_cases h : index_of a > index_of b <;> simp [h] <;> omega

/-- The left fold of stoi over a digit list, started from any accumulator,
computes the positional decimal value shifted under the accumulator. -/
theorem foldl_digits_eq (l : List Char) (acc : Nat) :
    l.foldl (fun n c => n * 10 + (c.toNat - 48)) acc
      = acc * 10 ^ l.length + decimal_value l := by
  induction l generalizing acc with
  | nil => simp [decimal_value]
  | cons c cs ih =>
      simp only [List.foldl_cons, ih, decimal_value, List.length_cons]
      ring

/-- When the while guard already sees GameOver, run_loop returns at once
and prints nothing. -/
theorem run_loop_gameover (fuel : Nat) (g : GameState)
    (inps : List RoundInput) (h : g.state = State.GameOver) :
    run_loop fuel g inps = (g, []) := by
  cases fuel with
  | zero => rfl
  | succ n => simp [run_loop, h]

/-! ### Claims -/

/-- C1: for rank labels taken from the fixed 13-entry table, is_between
returns true exactly when the index of the test rank lies strictly
between the smaller and the larger of the two bound indices, and
is_between with equal bounds is false for every test rank. -/
theorem is_between_strict_open_interval (a b test : String)
    (ha : a ∈ CARDS) (hb : b ∈ CARDS) (ht : test ∈ CARDS) :
    (is_between a b test = true ↔
      min (index_of a) (index_of b) < index_of test ∧
      index_of test < max (index_of a) (index_of b)) ∧
    is_between a a test = false := by
  refine ⟨is_between_iff a b test, ?_⟩
  have h := is_between_iff a a test
  revert h
  cases is_between a a test <;> simp <;> omega

/-- Witness for C1 at a = 2, b = 5, test = 3. -/
theorem is_between_strict_open_interval_witness :
    (is_between "2" "5" "3" = true ↔
      min (index_of "2") (index_of "5") < index_of "3" ∧
      index_of "3" < max (index_of "2") (index_of "5")) ∧
    is_between "2" "2" "3" = false :=
  is_between_strict_open_interval "2" "5" "3"
    (by decide) (by decide) (by decide)

/-- C9: is_between does not depend on the order of its two bound
arguments. -/
theorem is_between_comm (a b t : String) :
    is_between a b t = is_between b a t := by
  rw [Bool.eq_iff_iff, is_between_iff, is_between_iff,
      Nat.min_comm (index_of b) (index_of a),
      Nat.max_comm (index_of b) (index_of a)]

/-- C7: get_positive_integer returns the positional decimal value of the
string exactly when the string is non-empty and all of its characters are
decimal digits, returns the sentinel -1 otherwise, and accepts (returns a
non-sentinel value) if and only if the string is non-empty and
all-digits. -/
theorem get_positive_integer_characterisation (s : String) :
    (s.data ≠ [] → s.data.all Char.isDigit = true →
        get_positive_integer s = (decimal_value s.data : Int)) ∧
    ((s.data = [] ∨ s.data.all Char.isDigit = false) →
        get_positive_integer s = -1) ∧
    (get_positive_integer s ≠ -1 ↔
        s.data ≠ [] ∧ ∀ c ∈ s.data, c.isDigit = true) := by
  have hval : s.data ≠ [] → s.data.all Char.isDigit = true →
      get_positive_integer s = (decimal_value s.data : Int) := by
    intro hne hdig
    unfold get_positive_integer stoi_digits
    rw [if_pos ⟨by simpa [List.isEmpty_iff] using hne, hdig⟩]
    rw [foldl_digits_eq]
    simp
  have hrej : (s.data = [] ∨ s.data.all Char.isDigit = false) →
      get_positive_integer s = -1 := by
    intro h
    unfold get_positive_integer
    rw [if_neg]
    rintro ⟨h1, h2⟩
    rcases h with h | h
    · exact h1 (by simpa [List.isEmpty_iff] using h)
    · rw [h] at h2
      exact Bool.false_ne_true h2
  refine ⟨hval, hrej, ?_⟩
  constructor
  · intro hacc
    by_cases hne : s.data = []
    · exact absurd (hrej (Or.inl hne)) hacc
    · by_cases hdig : s.data.all Char.isDigit = true
      · exact ⟨hne, by simpa [List.all_eq_true] using hdig⟩
      · exact absurd (hrej (Or.inr (by simpa using hdig))) hacc
  · rintro ⟨hne, hdig⟩
    rw [hval hne (by simpa [List.all_eq_true] using hdig)]
    omega

/-- Witness for C7 at the accepted string 12 and the rejected string
1a. -/
theorem get_positive_integer_characterisation_witness :
    get_positive_integer "12" = (decimal_value "12".data : Int) ∧
    get_positive_integer "1a" = -1 :=
  ⟨(get_positive_integer_characterisation "12").1 (by decide) (by decide),
   (get_positive_integer_characterisation "1a").2.1 (Or.inr (by decide))⟩

/-- C3: when the parsed bet is non-positive (a failed parse yields the
sentinel -1, an explicit zero parses to 0), the round prints CHICKEN!!,
ends in state BetNothing with the balance untouched, and only the two
face-up cards were dealt. -/
theorem play_turn_rejected_bet (g : GameState) (inp : RoundInput)
    (h : get_positive_integer (get_input_line inp.betLine) ≤ 0) :
    (play_turn g inp).game = ⟨g.balance, State.BetNothing⟩ ∧
    "CHICKEN!!" ∈ (play_turn g inp).output ∧
    (play_turn g inp).cardsDealt = 2 := by
  unfold play_turn
  simp [h]

/-- Witness for C3 with the non-numeric bet line abc. -/
theorem play_turn_rejected_bet_witness :
    (play_turn ⟨100, State.Playing⟩ ⟨"2", "K", "7", "abc", ""⟩).game
        = ⟨100, State.BetNothing⟩ ∧
    "CHICKEN!!" ∈ (play_turn ⟨100, State.Playing⟩
        ⟨"2", "K", "7", "abc", ""⟩).output ∧
    (play_turn ⟨100, State.Playing⟩ ⟨"2", "K", "7", "abc", ""⟩).cardsDealt
        = 2 :=
  play_turn_rejected_bet ⟨100, State.Playing⟩ ⟨"2", "K", "7", "abc", ""⟩
    (by decide)

/-- C4: in a round (positive balance) whose parsed bet exceeds the
balance, play_turn prints the warning naming the current balance and ends
with the balance unchanged, state Playing, and no third card dealt. -/
theorem play_turn_overbet (g : GameState) (inp : RoundInput)
    (hbal : 0 < g.balance)
    (hgt : get_positive_integer (get_input_line inp.betLine) > g.balance) :
    (play_turn g inp).game = ⟨g.balance, State.Playing⟩ ∧
    (play_turn g inp).cardsDealt = 2 ∧
    ("YOU HAVE ONLY " ++ toString g.balance ++ " DOLLARS TO BET.")
        ∈ (play_turn g inp).output := by
  have hpos : ¬ get_positive_integer (get_input_line inp.betLine) ≤ 0 := by
    omega
  unfold play_turn bet_branch
  simp [hpos, hgt]

/-- Witness for C4: balance 100, bet 500. -/
theorem play_turn_overbet_witness :
    (play_turn ⟨100, State.Playing⟩ ⟨"2", "K", "7", "500", ""⟩).game
        = ⟨100, State.Playing⟩ ∧
    (play_turn ⟨100, State.Playing⟩ ⟨"2", "K", "7", "500", ""⟩).cardsDealt
        = 2 ∧
    ("YOU HAVE ONLY " ++ toString (100 : Int) ++ " DOLLARS TO BET.")
        ∈ (play_turn ⟨100, State.Playing⟩ ⟨"2", "K", "7", "500", ""⟩).output :=
  play_turn_overbet ⟨100, State.Playing⟩ ⟨"2", "K", "7", "500", ""⟩
    (by decide) (by decide)

/-- C2: with a parsed bet satisfying 0 < bet and bet ≤ balance, play_turn
deals the third card (three deal_card calls) and settles by exactly the
bet: a win adds exactly bet, a loss subtracts exactly bet. The only
other balance change is the broke-branch reset to 100, which happens only
when the loss already took the balance to ≤ 0 and the player answered
YES; it is a reset, not a settlement amount. -/
theorem play_turn_settles_exact_bet (g : GameState) (inp : RoundInput)
    (hpos : 0 < get_positive_integer (get_input_line inp.betLine))
    (hle : get_positive_integer (get_input_line inp.betLine) ≤ g.balance) :
    (play_turn g inp).cardsDealt = 3 ∧
    (is_between inp.first inp.second inp.third = true →
      (play_turn g inp).game.balance =
        g.balance + get_positive_integer (get_input_line inp.betLine)) ∧
    (is_between inp.first inp.second inp.third = false →
      (play_turn g inp).game.balance =
        g.balance - get_positive_integer (get_input_line inp.betLine) ∨
      (g.balance - get_positive_integer (get_input_line inp.betLine) ≤ 0 ∧
       get_input_line inp.brokeLine = "YES" ∧
       (play_turn g inp).game.balance = 100)) := by
  have h0 : ¬ get_positive_integer (get_input_line inp.betLine) ≤ 0 := by
    omega
  have h1 : ¬ get_positive_integer (get_input_line inp.betLine) > g.balance :=
    by omega
  unfold play_turn bet_branch
  simp only [h0, if_false, h1, ite_false, if_neg, not_false_iff]
  cases hw : is_between inp.first inp.second inp.third
  · simp only [Bool.false_eq_true, if_false]
    by_cases hb : g.balance - get_positive_integer (get_input_line inp.betLine) ≤ 0
    · simp only [hb, if_pos, ite_true]
      by_cases hy : get_input_line inp.brokeLine = "YES"
      · simp [hy, hb]
      · simp [hy]
    · simp [hb]
  · simp

/-- Witness for C2: balance 100, bet 50, winning third card. -/
theorem play_turn_settles_exact_bet_witness :
    (play_turn ⟨100, State.Playing⟩ ⟨"2", "K", "7", "50", ""⟩).cardsDealt = 3 ∧
    (play_turn ⟨100, State.Playing⟩ ⟨"2", "K", "7", "50", ""⟩).game.balance =
      100 + get_positive_integer (get_input_line "50") := by
  have h := play_turn_settles_exact_bet ⟨100, State.Playing⟩
    ⟨"2", "K", "7", "50", ""⟩ (by decide) (by decide)
  exact ⟨h.1, h.2.1 (by decide)⟩

/-- C5: when a loss drives the balance to ≤ 0, the broke prompt is
printed; a trimmed-and-uppercased YES resets the balance to 100 with
state Playing, while any other response leaves the loop iteration in
state GameOver, and from that state the run loop terminates at once on
its next guard check, printing nothing further. This is stated at the
level of one full run-loop iteration (play_turn followed by the
is_game_over check in run), which is where the terminating GameOver
state is established. -/
theorem broke_prompt_resolution (g : GameState) (inp : RoundInput)
    (hpos : 0 < get_positive_integer (get_input_line inp.betLine))
    (hle : get_positive_integer (get_input_line inp.betLine) ≤ g.balance)
    (hloss : is_between inp.first inp.second inp.third = false)
    (hbroke : g.balance - get_positive_integer (get_input_line inp.betLine)
        ≤ 0) :
    "TRY AGAIN (YES OR NO)? " ∈ (step g inp).2 ∧
    (get_input_line inp.brokeLine = "YES" →
        (step g inp).1 = ⟨100, State.Playing⟩) ∧
    (get_input_line inp.brokeLine ≠ "YES" →
        (step g inp).1.state = State.GameOver ∧
        ∀ fuel inps, run_loop fuel (step g inp).1 inps
            = ((step g inp).1, [])) := by
  have h0 : ¬ get_positive_integer (get_input_line inp.betLine) ≤ 0 := by
    omega
  have h1 : ¬ get_positive_integer (get_input_line inp.betLine) > g.balance :=
    by omega
  by_cases hy : get_input_line inp.brokeLine = "YES"
  · unfold step play_turn bet_branch
    simp [h0, h1, hloss, hbroke, hy, is_game_over]
  · unfold step play_turn bet_branch
    simp only [h0, if_false, h1, hloss, hbroke, hy, is_game_over,
      Bool.false_eq_true, if_neg, ite_false, ite_true, if_pos,
      not_false_iff, decide_eq_true_eq]
    refine ⟨by simp, by simp [hy], fun _ => ⟨?_, ?_⟩⟩
    · simp [hbroke]
    · intro fuel inps
      apply run_loop_gameover
      simp [hbroke]

/-- Witness for C5: balance 100, bet 100, losing third card, answer
written as lowercase yes surrounded by whitespace. -/
theorem broke_prompt_resolution_witness :
    "TRY AGAIN (YES OR NO)? " ∈
      (step ⟨100, State.Playing⟩ ⟨"2", "3", "A", "100", " yes "⟩).2 ∧
    (step ⟨100, State.Playing⟩ ⟨"2", "3", "A", "100", " yes "⟩).1
      = ⟨100, State.Playing⟩ := by
  have h := broke_prompt_resolution ⟨100, State.Playing⟩
    ⟨"2", "3", "A", "100", " yes "⟩ (by decide) (by decide)
    (by decide) (by decide)
  exact ⟨h.1, h.2.1 (by decide)⟩

/-- C10: play_turn never returns with state GameOver, because the
trailing unconditional state = Playing assignment overwrites the GameOver
set in the broke branch; after any call its state is Playing or
BetNothing, and one loop iteration of run can end in GameOver only when
the is_game_over balance check in run fires. -/
theorem play_turn_never_ends_gameover (g : GameState) (inp : RoundInput) :
    ((play_turn g inp).game.state = State.Playing ∨
     (play_turn g inp).game.state = State.BetNothing) ∧
    ((step g inp).1.state = State.GameOver →
        is_game_over (play_turn g inp).game = true) := by
  constructor
  · unfold play_turn
    by_cases h : get_positive_integer (get_input_line inp.betLine) ≤ 0
    · simp [h]
    · simp [h]
  · unfold step
    by_cases h : is_game_over (play_turn g inp).game
    · simp [h]
    · simp only [h, Bool.false_eq_true, if_neg, ite_false, not_false_iff]
      intro hgo
      exfalso
      revert hgo
      unfold play_turn
      by_cases hb : get_positive_integer (get_input_line inp.betLine) ≤ 0 <;>
        simp [hb]

/-- Witness for C10: the broke round with answer NO ends the loop
iteration in GameOver, and indeed the balance check had fired. -/
theorem play_turn_never_ends_gameover_witness :
    is_game_over (play_turn ⟨100, State.Playing⟩
        ⟨"2", "3", "A", "100", "NO"⟩).game = true :=
  (play_turn_never_ends_gameover ⟨100, State.Playing⟩
      ⟨"2", "3", "A", "100", "NO"⟩).2 (by decide)

/-- The balance of every reachable loop state that is not GameOver is
positive: initially it is 100, the Initialising arm does not change it,
and after any play arm the is_game_over check sends a non-positive
balance straight to GameOver. -/
theorem reachable_balance_pos (g : GameState) (hr : Reachable g) :
    g.state ≠ State.GameOver → 0 < g.balance := by
  induction hr with
  | init => intro _; norm_num
  | next g inp hr hne ih =>
      intro hne'
      rcases g with ⟨bal, st⟩
      cases st with
      | Initialising => exact ih (by simp)
      | GameOver => exact absurd rfl hne
      | Playing =>
          revert hne'
          unfold loop_body step
          by_cases h : is_game_over (play_turn ⟨bal, State.Playing⟩ inp).game
          · simp [h]
          · simp only [h, Bool.false_eq_true, if_neg, ite_false,
              not_false_iff]
            intro _
            unfold is_game_over at h
            simpa using h
      | BetNothing =>
          revert hne'
          unfold loop_body step
          by_cases h : is_game_over (play_turn ⟨bal, State.BetNothing⟩
              inp).game
          · simp [h]
          · simp only [h, Bool.false_eq_true, if_neg, ite_false,
              not_false_iff]
            intro _
            unfold is_game_over at h
            simpa using h

/-- C6: in every reachable execution of run, a round (a play_turn call,
which run makes exactly in the Playing and BetNothing states) is never
entered with a non-positive balance: whenever the balance drops to ≤ 0 it
is either reset to 100 by the broke branch or the state becomes GameOver
before the next round. -/
theorem round_never_entered_broke (g : GameState) (hr : Reachable g)
    (hplay : g.state = State.Playing ∨ g.state = State.BetNothing) :
    0 < g.balance := by
  apply reachable_balance_pos g hr
  rcases hplay with h | h <;> simp [h]

/-- Witness for C6 at the reachable state after the Initialising
iteration. -/
theorem round_never_entered_broke_witness :
    0 < (GameState.mk 100 State.Playing).balance :=
  round_never_entered_broke ⟨100, State.Playing⟩
    (Reachable.next ⟨100, State.Initialising⟩ ⟨"2", "3", "4", "1", ""⟩
      Reachable.init (by simp))
    (Or.inl rfl)

/-- C8 (code bug): the farewell arm of the switch in run is dead code,
because the while guard exits as soon as state is GameOver, before the
switch could dispatch on it. In the concrete complete game below (bet
100 on a 2-3 pair, lose, decline to try again) the loop terminates in
GameOver yet the farewell line never appears in the output, and a loop
started directly in GameOver prints nothing at all. -/
theorem run_gameover_farewell_never_printed :
    (run_loop 3 ⟨100, State.Initialising⟩
        [⟨"2", "3", "A", "100", "NO"⟩]).1 = ⟨0, State.GameOver⟩ ∧
    farewell ∉ (run_loop 3 ⟨100, State.Initialising⟩
        [⟨"2", "3", "A", "100", "NO"⟩]).2 ∧
    ∀ inps, run_loop 5 ⟨0, State.GameOver⟩ inps = (⟨0, State.GameOver⟩, []) :=
  ⟨by decide, by decide, fun inps => run_loop_gameover 5 _ inps rfl⟩

end AceyDucey
